import Mathlib

/-
Shallow embedding of the game_of_life repository (src/life.py).

Modelling notes:
  * A Python Cell object holds direct references to its neighboring Cell
    objects.  All cells live in the owning Life grid's 2D list, so a
    reference is modelled as the (x, y) coordinate of the referenced cell,
    resolved through the owning grid at lookup time.
  * The Python attribute new_state does not exist until set_new_state is
    first called; it is modelled as an Option Bool (none = attribute absent,
    reading it raises AttributeError, i.e. the operation fails).
  * Python list indexing raises IndexError when out of range; lookups are
    modelled with Option-returning getCell, and next_generation (whose loop
    bodies index and would propagate IndexError / AttributeError) returns
    Option Life, none meaning an uncaught exception.
  * random.randint used by randomize_cells is abstracted as an oracle
    rnd : Nat -> Nat -> Bool giving the coin flipped for cell (x, y).
  * Grid dimensions are Python ints, modelled as Int; range(n) for n <= 0 is
    empty, modelled as List.range n.toNat.
-/

namespace GameOfLife

/-- The eight compass directions, the keys of the Cell.neighbors dict. -/
inductive Direction : Type
  | N | NW | W | SW | S | SE | E | NE
deriving DecidableEq, Repr

/-- Insertion order of the keys of Cell.neighbors / Life.directions. -/
def dirList : List Direction :=
  [Direction.N, Direction.NW, Direction.W, Direction.SW,
   Direction.S, Direction.SE, Direction.E, Direction.NE]

/-- Life.directions: translates compass points to (dx, dy) offsets. -/
def directions : Direction → Int × Int
  | Direction.N => (0, 1)
  | Direction.NW => (-1, 1)
  | Direction.W => (-1, 0)
  | Direction.SW => (-1, -1)
  | Direction.S => (0, -1)
  | Direction.SE => (1, -1)
  | Direction.E => (1, 0)
  | Direction.NE => (1, 1)

/-- The Cell.neighbors dict: eight fixed keys, each an optional reference to
a neighboring cell (modelled as that cell's coordinate in the grid). -/
structure Neighbors : Type where
  n : Option (Nat × Nat)
  nw : Option (Nat × Nat)
  w : Option (Nat × Nat)
  sw : Option (Nat × Nat)
  s : Option (Nat × Nat)
  se : Option (Nat × Nat)
  e : Option (Nat × Nat)
  ne : Option (Nat × Nat)
deriving DecidableEq, Repr

/-- Dict lookup self.neighbors[direction]. -/
def Neighbors.get (nb : Neighbors) : Direction → Option (Nat × Nat)
  | Direction.N => nb.n
  | Direction.NW => nb.nw
  | Direction.W => nb.w
  | Direction.SW => nb.sw
  | Direction.S => nb.s
  | Direction.SE => nb.se
  | Direction.E => nb.e
  | Direction.NE => nb.ne

/-- Dict update self.neighbors[direction] = cell. -/
def Neighbors.set (nb : Neighbors) (d : Direction) (q : Nat × Nat) : Neighbors :=
  match d with
  | Direction.N => { nb with n := some q }
  | Direction.NW => { nb with nw := some q }
  | Direction.W => { nb with w := some q }
  | Direction.SW => { nb with sw := some q }
  | Direction.S => { nb with s := some q }
  | Direction.SE => { nb with se := some q }
  | Direction.E => { nb with e := some q }
  | Direction.NE => { nb with ne := some q }

/-- Initial neighbors dict of Cell.__init__: every direction None. -/
def Neighbors.empty : Neighbors :=
  ⟨none, none, none, none, none, none, none, none⟩

/-- A Cell object of life.py. -/
structure Cell : Type where
  x : Nat
  y : Nat
  state : Bool
  new_state : Option Bool
  neighbors : Neighbors
deriving DecidableEq, Repr

/-- Cell.__init__(x, y, state). -/
def Cell.init (x y : Nat) (state : Bool) : Cell :=
  { x := x, y := y, state := state, new_state := none, neighbors := Neighbors.empty }

/-- Cell.set_state(state). -/
def Cell.set_state (c : Cell) (b : Bool) : Cell :=
  { c with state := b }

/-- Cell.set_neighbor(direction, cell); the neighbor reference is the
coordinate of the referenced cell. -/
def Cell.set_neighbor (c : Cell) (d : Direction) (q : Nat × Nat) : Cell :=
  { c with neighbors := c.neighbors.set d q }

/-- Cell.set_new_state(new_state). -/
def Cell.set_new_state (c : Cell) (b : Bool) : Cell :=
  { c with new_state := some b }

/-- Indexing self.cells[x][y]: none when either index raises IndexError. -/
def getCell (cs : List (List Cell)) (x y : Nat) : Option Cell :=
  match cs[x]? with
  | some row => row[y]?
  | none => none

/-- Contribution of one neighbors-dict entry to the generator expression of
count_live_neighbors: 1 when the entry is not None and the referenced cell is
alive, else 0. -/
def liveContribution (cs : List (List Cell)) : Option (Nat × Nat) → Nat
  | none => 0
  | some q =>
    match getCell cs q.1 q.2 with
    | some nb => if nb.state then 1 else 0
    | none => 0

/-- Cell.count_live_neighbors(): sum over the neighbors dict of the entries
that are not None and whose cell is alive (references resolved through the
owning grid). -/
def count_live_neighbors (cs : List (List Cell)) (c : Cell) : Nat :=
  (dirList.map (fun d => liveContribution cs (c.neighbors.get d))).sum

/-- In-place update of one list element (identity when out of range; every
use in this development is in range, matching the Python indexing that would
otherwise raise). -/
def listModify {α : Type} (f : α → α) : Nat → List α → List α
  | _, [] => []
  | 0, a :: as => f a :: as
  | i + 1, a :: as => a :: listModify f i as

/-- In-place update of the cell self.cells[x][y]. -/
def modify2 (cs : List (List Cell)) (x y : Nat) (f : Cell → Cell) : List (List Cell) :=
  listModify (fun row => listModify f y row) x cs

/-- Row lengths of the 2D cell list. -/
def shape (cs : List (List Cell)) : List Nat :=
  cs.map List.length

/-- The grid is a dense w-by-h rectangle (w columns of h cells each). -/
def Shaped (w h : Nat) (cs : List (List Cell)) : Prop :=
  shape cs = List.replicate w h

instance (w h : Nat) (cs : List (List Cell)) : Decidable (Shaped w h cs) := by
  unfold Shaped; infer_instance

/-- Projection of the grid to the per-cell alive states (what
count_live_neighbors reads from the grid). -/
def stateView (cs : List (List Cell)) : List (List Bool) :=
  cs.map (fun row => row.map Cell.state)

/-- Coordinates visited by the nested loops for y in range(h): for x in
range(w), in loop order. -/
def allCoords (w h : Nat) : List (Nat × Nat) :=
  (List.range h).flatMap (fun y => (List.range w).map (fun x => (x, y)))

/-- Life.create_cells(): one Cell object per grid element, all dead;
cells[x][y] holds the cell at coordinate (x, y). -/
def create_cells (w h : Nat) : List (List Cell) :=
  (List.range w).map (fun x => (List.range h).map (fun y => Cell.init x y false))

/-- Life.randomize_cells(): sets the state of every cell to a fresh coin flip
(the comprehension runs for y in range(height), for x in range(width)). -/
def randomize_cells (rnd : Nat → Nat → Bool) (w h : Nat)
    (cs : List (List Cell)) : List (List Cell) :=
  (allCoords w h).foldl
    (fun a p => modify2 a p.1 p.2 (fun c => c.set_state (rnd p.1 p.2))) cs

/-- One direction of the Life.set_neighbors inner loop body: skip when a
candidate coordinate is negative (the explicit guard) or when indexing
self.cells[x+dx][y+dy] raises IndexError (caught and ignored); otherwise
record the neighbor reference. -/
def wireDir (cs : List (List Cell)) (x y : Nat) (d : Direction) (c : Cell) : Cell :=
  let dxy := directions d
  let cx : Int := (x : Int) + dxy.1
  let cy : Int := (y : Int) + dxy.2
  if cx < 0 ∨ cy < 0 then c
  else if (getCell cs cx.toNat cy.toNat).isSome then
    c.set_neighbor d (cx.toNat, cy.toNat)
  else c

/-- The Life.set_neighbors loop body for one cell: the inner loop over the
eight entries of Life.directions, in dict order. -/
def wireCell (cs : List (List Cell)) (x y : Nat) (c : Cell) : Cell :=
  dirList.foldl (fun c d => wireDir cs x y d c) c

/-- Life.set_neighbors(): populate each cells dict of neighbors. -/
def set_neighbors (w h : Nat) (cs : List (List Cell)) : List (List Cell) :=
  (allCoords w h).foldl (fun a p => modify2 a p.1 p.2 (wireCell a p.1 p.2)) cs

/-- A Life object of life.py. -/
structure Life : Type where
  width : Int
  height : Int
  cells : List (List Cell)
deriving DecidableEq, Repr

/-- Life.__init__(width, height): create cells, randomize them, then wire
neighbor references.  There is no validation of the dimensions. -/
def Life.init (width height : Int) (rnd : Nat → Nat → Bool) : Life :=
  let w := width.toNat
  let h := height.toNat
  let cs := create_cells w h
  let cs := randomize_cells rnd w h cs
  let cs := set_neighbors w h cs
  { width := width, height := height, cells := cs }

/-- Conway branch of the compute loop of Life.next_generation, acting on the
cell at one coordinate: stage the next state via set_new_state, reading the
live-neighbor count from the current grid. -/
def computeCell (cs : List (List Cell)) (c : Cell) : Cell :=
  let n := count_live_neighbors cs c
  if c.state then
    if n < 2 ∨ n > 3 then c.set_new_state false
    else c.set_new_state c.state
  else
    if n = 3 then c.set_new_state true
    else c.set_new_state c.state

/-- Cell.apply_new_state() as a pure cell map (the Option-free shape used to
state what the apply pass does; a cell whose new_state attribute was never
set is left unchanged, the Option-level definition below fails instead). -/
def applyCell (c : Cell) : Cell :=
  match c.new_state with
  | some b => { c with state := b }
  | none => c

/-- Body of the compute loop of next_generation at one coordinate: index the
cell (IndexError propagates as none), count its live neighbors and stage its
next state in place. -/
def computeStepM (a : List (List Cell)) (p : Nat × Nat) : Option (List (List Cell)) := do
  let c ← getCell a p.1 p.2
  pure (modify2 a p.1 p.2 (fun _ => computeCell a c))

/-- Body of the apply loop of next_generation at one coordinate: index the
cell and run Cell.apply_new_state, which reads the new_state attribute
(AttributeError propagates as none when it was never staged). -/
def applyStepM (a : List (List Cell)) (p : Nat × Nat) : Option (List (List Cell)) := do
  let c ← getCell a p.1 p.2
  let b ← c.new_state
  pure (modify2 a p.1 p.2 (fun c0 => { c0 with state := b }))

/-- Life.next_generation(): the compute pass stages a new state for every
cell, then the apply pass copies each staged state into the live state.
Failure (none) models an uncaught Python exception: IndexError from
self.cells[x][y], or AttributeError from reading an unset new_state in
Cell.apply_new_state. -/
def next_generation (g : Life) : Option Life := do
  let coords := allCoords g.width.toNat g.height.toNat
  let cs1 ← coords.foldlM computeStepM g.cells
  let cs2 ← coords.foldlM applyStepM cs1
  pure { g with cells := cs2 }

/-- Repeated calls of next_generation by the driver loop. -/
def advanceN : Nat → Life → Option Life
  | 0, g => some g
  | k + 1, g =>
    match next_generation g with
    | some g1 => advanceN k g1
    | none => none

/-- Candidate neighbor coordinate (x+dx, y+dy) computed by set_neighbors,
converted back to list indices. -/
def candidate (x y : Nat) (d : Direction) : Nat × Nat :=
  (((x : Int) + (directions d).1).toNat, ((y : Int) + (directions d).2).toNat)

/-- Condition under which set_neighbors records a neighbor: the candidate is
not negative (the explicit guard) and indexing it does not raise. -/
def okDir (cs : List (List Cell)) (x y : Nat) (d : Direction) : Prop :=
  ¬((x : Int) + (directions d).1 < 0 ∨ (y : Int) + (directions d).2 < 0) ∧
    (getCell cs (candidate x y d).1 (candidate x y d).2).isSome = true

instance (cs : List (List Cell)) (x y : Nat) (d : Direction) :
    Decidable (okDir cs x y d) := by
  unfold okDir; infer_instance

/-- Two-sided bounds condition: the candidate coordinate lies inside
[0, w) x [0, h); equivalent (over a well-shaped grid) to the checks actually
performed by set_neighbors. -/
def inBoundsCand (w h x y : Nat) (d : Direction) : Prop :=
  0 ≤ (x : Int) + (directions d).1 ∧ 0 ≤ (y : Int) + (directions d).2 ∧
    (x : Int) + (directions d).1 < (w : Int) ∧ (y : Int) + (directions d).2 < (h : Int)

instance (w h x y : Nat) (d : Direction) : Decidable (inBoundsCand w h x y d) := by
  unfold inBoundsCand; infer_instance

/-- Neighbor entry produced by construction for one direction. -/
def neighborEntry (w h x y : Nat) (d : Direction) : Option (Nat × Nat) :=
  if inBoundsCand w h x y d then some (candidate x y d) else none

/-- The neighbors dict a constructed cell at (x, y) ends up with. -/
def initNeighbors (w h x y : Nat) : Neighbors :=
  { n := neighborEntry w h x y Direction.N
    nw := neighborEntry w h x y Direction.NW
    w := neighborEntry w h x y Direction.W
    sw := neighborEntry w h x y Direction.SW
    s := neighborEntry w h x y Direction.S
    se := neighborEntry w h x y Direction.SE
    e := neighborEntry w h x y Direction.E
    ne := neighborEntry w h x y Direction.NE }

/-- Value staged by the compute pass for a cell with current state s and
live-neighbor count n (the branch structure of next_generation). -/
def nextStateVal (s : Bool) (n : Nat) : Bool :=
  if s then
    if n < 2 ∨ n > 3 then false else s
  else
    if n = 3 then true else s

/-- What a full next_generation call does to the cell at one coordinate:
stage the Conway next state, then copy it into the live state. -/
def advCell (cs : List (List Cell)) (c : Cell) : Cell :=
  applyCell (computeCell cs c)

/-- Bool form of one neighbors-dict entry being assigned and referencing a
live cell. -/
def liveB (cs : List (List Cell)) : Option (Nat × Nat) → Bool
  | none => false
  | some q =>
    match getCell cs q.1 q.2 with
    | some nb => nb.state
    | none => false

/-- Number of assigned neighbor directions of a cell. -/
def assignedDirs (c : Cell) : Nat :=
  dirList.countP (fun d => (c.neighbors.get d).isSome)

/-- Every cell of the grid is dead. -/
def allDead (cs : List (List Cell)) : Bool :=
  cs.all (fun row => row.all (fun c => !c.state))

/-- Reverse compass direction. -/
def reverseDir : Direction → Direction
  | Direction.N => Direction.S
  | Direction.S => Direction.N
  | Direction.NW => Direction.SE
  | Direction.SE => Direction.NW
  | Direction.W => Direction.E
  | Direction.E => Direction.W
  | Direction.SW => Direction.NE
  | Direction.NE => Direction.SW

theorem length_listModify {α : Type} (f : α → α) (i : Nat) (l : List α) :
    (listModify f i l).length = l.length := by
  induction l generalizing i with
  | nil => cases i <;> rfl
  | cons a as ih => cases i with
    | zero => rfl
    | succ j => simpa [listModify] using ih j

theorem getElem?_listModify {α : Type} (f : α → α) (i j : Nat) (l : List α) :
    (listModify f i l)[j]? = if i = j then Option.map f l[j]? else l[j]? := by
  induction l generalizing i j with
  | nil => cases i <;> simp [listModify]
  | cons a as ih =>
    cases i with
    | zero => cases j <;> simp [listModify]
    | succ i =>
      cases j with
      | zero => simp [listModify]
      | succ j => simpa [listModify] using ih i j

theorem getCell_modify2 (cs : List (List Cell)) (x y : Nat) (f : Cell → Cell)
    (u v : Nat) :
    getCell (modify2 cs x y f) u v =
      if x = u ∧ y = v then Option.map f (getCell cs u v) else getCell cs u v := by
  unfold getCell modify2
  rw [getElem?_listModify]
  by_cases hx : x = u
  · subst hx
    cases h : cs[x]? with
    | none => simp [h]
    | some row =>
      simp only [h, Option.map, if_true, eq_self_iff_true, true_and]
      rw [getElem?_listModify]
      by_cases hy : y = v
      · subst hy
        cases hr : row[y]? <;> simp [hr]
      · simp [hy]
  · simp [hx]

theorem shape_modify2 (cs : List (List Cell)) (x y : Nat) (f : Cell → Cell) :
    shape (modify2 cs x y f) = shape cs := by
  unfold shape modify2
  apply List.ext_getElem?
  intro i
  rw [List.getElem?_map, List.getElem?_map, getElem?_listModify]
  by_cases hx : x = i
  · subst hx
    cases h : cs[x]? with
    | none => simp
    | some row => simp [length_listModify]
  · simp [hx]

theorem getElem?_isSome_iff {α : Type} (l : List α) (n : Nat) :
    l[n]?.isSome = true ↔ n < l.length := by
  rw [Option.isSome_iff_exists]
  constructor
  · rintro ⟨a, ha⟩; exact (List.getElem?_eq_some.mp ha).1
  · intro h; exact ⟨l[n], List.getElem?_eq_some.mpr ⟨h, rfl⟩⟩

theorem getCell_isSome_of_shape {cs cs0 : List (List Cell)}
    (h : shape cs = shape cs0) (u v : Nat) :
    (getCell cs u v).isSome = (getCell cs0 u v).isSome := by
  unfold getCell
  have h1 : cs[u]?.map List.length = cs0[u]?.map List.length := by
    have := congrArg (fun l => l[u]?) h
    simpa [shape, List.getElem?_map] using this
  cases h2 : cs[u]? with
  | none =>
    cases h3 : cs0[u]? with
    | none => rfl
    | some r0 => rw [h2, h3] at h1; simp at h1
  | some r =>
    cases h3 : cs0[u]? with
    | none => rw [h2, h3] at h1; simp at h1
    | some r0 =>
      rw [h2, h3] at h1
      simp only [Option.map_some', Option.some_inj] at h1
      rw [Bool.eq_iff_iff, getElem?_isSome_iff, getElem?_isSome_iff, h1]

theorem getCell_isSome_iff {w h : Nat} {cs : List (List Cell)}
    (hs : Shaped w h cs) (u v : Nat) :
    (getCell cs u v).isSome = true ↔ u < w ∧ v < h := by
  unfold getCell
  have hs' : shape cs = List.replicate w h := hs
  have h1 : cs[u]?.map List.length = (List.replicate w h)[u]? := by
    have := congrArg (fun l => l[u]?) hs'
    simpa [shape, List.getElem?_map] using this
  have hlen : cs.length = w := by
    have := congrArg List.length hs'
    simpa [shape] using this
  by_cases hu : u < w
  · cases h2 : cs[u]? with
    | none =>
      rw [List.getElem?_eq_none_iff] at h2
      omega
    | some row =>
      have hrow : row.length = h := by
        rw [h2, List.getElem?_replicate, if_pos hu] at h1
        simpa using h1
      simp only [h2]
      rw [getElem?_isSome_iff, hrow]
      tauto
  · have h2 : cs[u]? = none := by
      rw [List.getElem?_eq_none_iff]; omega
    simp only [h2, Option.isSome_none]
    tauto

theorem getCell_some_bounds {w h : Nat} {cs : List (List Cell)}
    (hs : Shaped w h cs) {u v : Nat} {c : Cell}
    (hc : getCell cs u v = some c) : u < w ∧ v < h := by
  rw [← getCell_isSome_iff hs u v, hc]
  rfl

theorem getCell_state_of_stateView {cs cs0 : List (List Cell)}
    (h : stateView cs = stateView cs0) (u v : Nat) :
    (getCell cs u v).map Cell.state = (getCell cs0 u v).map Cell.state := by
  unfold getCell
  have h1 : cs[u]?.map (fun row => row.map Cell.state)
      = cs0[u]?.map (fun row => row.map Cell.state) := by
    have := congrArg (fun l => l[u]?) h
    simpa [stateView, List.getElem?_map] using this
  cases h2 : cs[u]? with
  | none =>
    cases h3 : cs0[u]? with
    | none => rfl
    | some r0 => rw [h2, h3] at h1; simp at h1
  | some r =>
    cases h3 : cs0[u]? with
    | none => rw [h2, h3] at h1; simp at h1
    | some r0 =>
      rw [h2, h3] at h1
      simp only [Option.map_some', Option.some_inj] at h1
      have := congrArg (fun l => l[v]?) h1
      simpa [List.getElem?_map] using this

theorem liveContribution_congr {cs cs0 : List (List Cell)}
    (h : stateView cs = stateView cs0) (r : Option (Nat × Nat)) :
    liveContribution cs r = liveContribution cs0 r := by
  cases r with
  | none => rfl
  | some q =>
    simp only [liveContribution]
    have hst := getCell_state_of_stateView h q.1 q.2
    cases h1 : getCell cs q.1 q.2 with
    | none =>
      cases h2 : getCell cs0 q.1 q.2 with
      | none => rfl
      | some nb0 => rw [h1, h2] at hst; simp at hst
    | some nb =>
      cases h2 : getCell cs0 q.1 q.2 with
      | none => rw [h1, h2] at hst; simp at hst
      | some nb0 =>
        rw [h1, h2] at hst
        simp only [Option.map_some', Option.some_inj] at hst
        simp [hst]

theorem count_live_neighbors_congr {cs cs0 : List (List Cell)}
    (h : stateView cs = stateView cs0) (c : Cell) :
    count_live_neighbors cs c = count_live_neighbors cs0 c := by
  unfold count_live_neighbors
  congr 1
  apply List.map_congr_left
  intro d _
  exact liveContribution_congr h (c.neighbors.get d)

theorem mem_allCoords {w h : Nat} {p : Nat × Nat} :
    p ∈ allCoords w h ↔ p.1 < w ∧ p.2 < h := by
  unfold allCoords
  constructor
  · intro hp
    rw [List.mem_flatMap] at hp
    obtain ⟨y, hy, hp⟩ := hp
    rw [List.mem_map] at hp
    obtain ⟨x, hx, rfl⟩ := hp
    rw [List.mem_range] at hy hx
    exact ⟨hx, hy⟩
  · intro ⟨h1, h2⟩
    rw [List.mem_flatMap]
    refine ⟨p.2, List.mem_range.mpr h2, ?_⟩
    rw [List.mem_map]
    exact ⟨p.1, List.mem_range.mpr h1, rfl⟩

theorem nodup_allCoords (w h : Nat) : (allCoords w h).Nodup := by
  unfold allCoords
  rw [List.nodup_flatMap]
  constructor
  · intro y _
    exact (List.nodup_range w).map (fun a b hab => by simpa using hab)
  · apply List.Pairwise.imp ?_ (List.nodup_range h)
    intro a b hab p hpa hpb
    rw [List.mem_map] at hpa hpb
    obtain ⟨xa, _, rfl⟩ := hpa
    obtain ⟨xb, _, hpb⟩ := hpb
    exact hab (congrArg Prod.snd hpb).symm

theorem shape_foldl_modify2 (Fdyn : List (List Cell) → Nat × Nat → Cell → Cell)
    (ps : List (Nat × Nat)) (cs : List (List Cell)) :
    shape (ps.foldl (fun a p => modify2 a p.1 p.2 (Fdyn a p)) cs) = shape cs := by
  induction ps generalizing cs with
  | nil => rfl
  | cons p ps ih =>
    rw [List.foldl_cons, ih, shape_modify2]

/-- Characterization of an in-place update sweep.  A pass of life.py updates
the cell at each visited coordinate once, in place, through a per-cell
function that may read the current grid; as long as the function only depends
on a view of the grid that its own updates never change, the sweep acts as a
pointwise map of the original grid. -/
theorem foldl_modify2_char {V : Type} (view : List (List Cell) → V)
    (Fdyn : List (List Cell) → Nat × Nat → Cell → Cell)
    (cs0 : List (List Cell))
    (hF : ∀ cs p, view cs = view cs0 → Fdyn cs p = Fdyn cs0 p)
    (hpres : ∀ cs p, view cs = view cs0 →
      view (modify2 cs p.1 p.2 (Fdyn cs0 p)) = view cs0) :
    ∀ ps : List (Nat × Nat), ps.Nodup → ∀ cs, view cs = view cs0 →
      (∀ q ∈ ps, getCell cs q.1 q.2 = getCell cs0 q.1 q.2) →
      ∀ u v, getCell (ps.foldl (fun a p => modify2 a p.1 p.2 (Fdyn a p)) cs) u v
        = if (u, v) ∈ ps then (getCell cs0 u v).map (Fdyn cs0 (u, v))
          else getCell cs u v := by
  intro ps
  induction ps with
  | nil =>
    intro _ cs _ _ u v
    simp
  | cons p ps ih =>
    intro hnd cs hview hun u v
    rw [List.nodup_cons] at hnd
    rw [List.foldl_cons]
    have hstep : modify2 cs p.1 p.2 (Fdyn cs p) = modify2 cs p.1 p.2 (Fdyn cs0 p) := by
      rw [hF cs p hview]
    rw [hstep]
    have hview1 : view (modify2 cs p.1 p.2 (Fdyn cs0 p)) = view cs0 :=
      hpres cs p hview
    have hun1 : ∀ q ∈ ps, getCell (modify2 cs p.1 p.2 (Fdyn cs0 p)) q.1 q.2
        = getCell cs0 q.1 q.2 := by
      intro q hq
      rw [getCell_modify2]
      have hpq : ¬(p.1 = q.1 ∧ p.2 = q.2) := by
        intro hc
        apply hnd.1
        have : p = q := Prod.ext hc.1 hc.2
        rw [this]; exact hq
      rw [if_neg hpq]
      exact hun q (List.mem_cons_of_mem p hq)
    rw [ih hnd.2 _ hview1 hun1 u v]
    by_cases hmem : (u, v) ∈ ps
    · rw [if_pos hmem, if_pos (List.mem_cons_of_mem p hmem)]
    · rw [if_neg hmem, getCell_modify2]
      by_cases hp : (u, v) = p
      · subst hp
        rw [if_pos ⟨rfl, rfl⟩, if_pos (List.mem_cons_self _ _)]
        rw [hun (u, v) (List.mem_cons_self _ _)]
      · have hp2 : ¬(p.1 = u ∧ p.2 = v) := by
          intro hc
          exact hp (Prod.ext hc.1 hc.2).symm
        rw [if_neg hp2, if_neg (by simp [hp, hmem])]

theorem getCell_create_cells (w h : Nat) (u v : Nat) :
    getCell (create_cells w h) u v =
      if u < w ∧ v < h then some (Cell.init u v false) else none := by
  unfold getCell create_cells
  rw [List.getElem?_map]
  by_cases hu : u < w
  · rw [List.getElem?_range hu]
    simp only [Option.map_some']
    rw [List.getElem?_map]
    by_cases hv : v < h
    · rw [List.getElem?_range hv]
      simp [hu, hv]
    · rw [List.getElem?_eq_none_iff.mpr (by simpa using Nat.le_of_not_lt hv)]
      simp [hu, hv]
  · rw [List.getElem?_eq_none_iff.mpr (by simpa using Nat.le_of_not_lt hu)]
    simp [hu]

theorem shaped_create_cells (w h : Nat) : Shaped w h (create_cells w h) := by
  unfold Shaped shape create_cells
  rw [List.map_map]
  have : (List.length ∘ fun x => (List.range h).map (fun y => Cell.init x y false))
      = fun _ => h := by
    funext x
    simp
  rw [this]
  rw [List.map_const', List.length_range]

theorem getCell_randomize (rnd : Nat → Nat → Bool) (w h : Nat) (u v : Nat) :
    getCell (randomize_cells rnd w h (create_cells w h)) u v =
      if u < w ∧ v < h then
        some { x := u, y := v, state := rnd u v, new_state := none,
               neighbors := Neighbors.empty }
      else none := by
  unfold randomize_cells
  have hchar := foldl_modify2_char (fun _ => ())
    (fun _ p => fun c => c.set_state (rnd p.1 p.2)) (create_cells w h)
    (fun _ _ _ => rfl) (fun _ _ _ => rfl)
    (allCoords w h) (nodup_allCoords w h) (create_cells w h) rfl
    (fun _ _ => rfl) u v
  rw [hchar]
  by_cases hb : u < w ∧ v < h
  · rw [if_pos (mem_allCoords.mpr hb), getCell_create_cells, if_pos hb, if_pos hb]
    rfl
  · rw [if_neg (fun hc => hb (mem_allCoords.mp hc)), getCell_create_cells,
      if_neg hb, if_neg hb]

theorem shaped_randomize (rnd : Nat → Nat → Bool) (w h : Nat) :
    Shaped w h (randomize_cells rnd w h (create_cells w h)) := by
  unfold Shaped randomize_cells
  rw [shape_foldl_modify2]
  exact shaped_create_cells w h

theorem get_set_neighbors (nb : Neighbors) (d d2 : Direction) (q : Nat × Nat) :
    (nb.set d q).get d2 = if d2 = d then some q else nb.get d2 := by
  cases d <;> cases d2 <;> simp [Neighbors.set, Neighbors.get]

theorem wireDir_get (cs : List (List Cell)) (x y : Nat) (d d2 : Direction)
    (c : Cell) :
    (wireDir cs x y d c).neighbors.get d2 =
      if d2 = d ∧ okDir cs x y d then some (candidate x y d)
      else c.neighbors.get d2 := by
  simp only [wireDir]
  by_cases h1 : (x : Int) + (directions d).1 < 0 ∨ (y : Int) + (directions d).2 < 0
  · rw [if_pos h1, if_neg (fun hc => hc.2.1 h1)]
  · rw [if_neg h1]
    by_cases h2 : (getCell cs ((x : Int) + (directions d).1).toNat
        ((y : Int) + (directions d).2).toNat).isSome = true
    · rw [if_pos h2]
      show (c.neighbors.set d _).get d2 = _
      rw [get_set_neighbors]
      by_cases hd : d2 = d
      · rw [if_pos hd, if_pos ⟨hd, h1, h2⟩]
        rfl
      · rw [if_neg hd, if_neg (fun hc => hd hc.1)]
    · rw [if_neg h2, if_neg (fun hc => h2 hc.2.2)]

theorem wireDir_fields (cs : List (List Cell)) (x y : Nat) (d : Direction)
    (c : Cell) :
    (wireDir cs x y d c).x = c.x ∧ (wireDir cs x y d c).y = c.y ∧
      (wireDir cs x y d c).state = c.state ∧
      (wireDir cs x y d c).new_state = c.new_state := by
  simp only [wireDir]
  split_ifs <;> simp [Cell.set_neighbor]

theorem wireCell_fields (cs : List (List Cell)) (x y : Nat) (c : Cell) :
    (wireCell cs x y c).x = c.x ∧ (wireCell cs x y c).y = c.y ∧
      (wireCell cs x y c).state = c.state ∧
      (wireCell cs x y c).new_state = c.new_state := by
  unfold wireCell
  generalize dirList = l
  induction l generalizing c with
  | nil => exact ⟨rfl, rfl, rfl, rfl⟩
  | cons d ds ih =>
    rw [List.foldl_cons]
    obtain ⟨e1, e2, e3, e4⟩ := ih (wireDir cs x y d c)
    obtain ⟨f1, f2, f3, f4⟩ := wireDir_fields cs x y d c
    exact ⟨e1.trans f1, e2.trans f2, e3.trans f3, e4.trans f4⟩

theorem wireCell_get (cs : List (List Cell)) (x y : Nat) (c : Cell)
    (d : Direction) :
    (wireCell cs x y c).neighbors.get d =
      if okDir cs x y d then some (candidate x y d)
      else c.neighbors.get d := by
  unfold wireCell dirList
  simp only [List.foldl_cons, List.foldl_nil, wireDir_get]
  cases d <;> simp

theorem neighbors_ext_get {nb1 nb2 : Neighbors}
    (h : ∀ d, nb1.get d = nb2.get d) : nb1 = nb2 := by
  cases nb1
  cases nb2
  have h1 := h Direction.N
  have h2 := h Direction.NW
  have h3 := h Direction.W
  have h4 := h Direction.SW
  have h5 := h Direction.S
  have h6 := h Direction.SE
  have h7 := h Direction.E
  have h8 := h Direction.NE
  simp only [Neighbors.get] at h1 h2 h3 h4 h5 h6 h7 h8
  subst h1 h2 h3 h4 h5 h6 h7 h8
  rfl

theorem wireCell_congr {cs cs0 : List (List Cell)} (h : shape cs = shape cs0)
    (x y : Nat) : wireCell cs x y = wireCell cs0 x y := by
  funext c
  unfold wireCell
  have hd : ∀ d c0, wireDir cs x y d c0 = wireDir cs0 x y d c0 := by
    intro d c0
    simp only [wireDir]
    rw [getCell_isSome_of_shape h]
  generalize dirList = l
  induction l generalizing c with
  | nil => rfl
  | cons d ds ih =>
    rw [List.foldl_cons, List.foldl_cons, hd d c, ih]

theorem initNeighbors_get (w h x y : Nat) (d : Direction) :
    (initNeighbors w h x y).get d = neighborEntry w h x y d := by
  cases d <;> rfl

theorem okDir_iff_inBounds {w h : Nat} {cs : List (List Cell)}
    (hs : Shaped w h cs) (x y : Nat) (d : Direction) :
    okDir cs x y d ↔ inBoundsCand w h x y d := by
  unfold okDir inBoundsCand candidate
  rw [getCell_isSome_iff hs]
  constructor
  · rintro ⟨hneg, h1, h2⟩
    push_neg at hneg
    exact ⟨hneg.1, hneg.2, by omega, by omega⟩
  · rintro ⟨h1, h2, h3, h4⟩
    exact ⟨by push_neg; exact ⟨h1, h2⟩, by omega, by omega⟩

theorem cell_ext {c1 c2 : Cell} (hx : c1.x = c2.x) (hy : c1.y = c2.y)
    (hs : c1.state = c2.state) (hn : c1.new_state = c2.new_state)
    (hnb : c1.neighbors = c2.neighbors) : c1 = c2 := by
  cases c1
  cases c2
  simp only [] at hx hy hs hn hnb
  subst hx hy hs hn hnb
  rfl

/-- Closed form for construction: Life(width, height) yields the dense grid
whose cell at in-range (x, y) carries the randomized state and the wired
neighbors dict; everything out of range is absent. -/
theorem getCell_init (width height : Int) (rnd : Nat → Nat → Bool) (u v : Nat) :
    getCell (Life.init width height rnd).cells u v =
      if u < width.toNat ∧ v < height.toNat then
        some { x := u, y := v, state := rnd u v, new_state := none,
               neighbors := initNeighbors width.toNat height.toNat u v }
      else none := by
  have hmain : ∀ w h : Nat,
      getCell (set_neighbors w h (randomize_cells rnd w h (create_cells w h))) u v =
        if u < w ∧ v < h then
          some { x := u, y := v, state := rnd u v, new_state := none,
                 neighbors := initNeighbors w h u v }
        else none := by
    intro w h
    have hsR : Shaped w h (randomize_cells rnd w h (create_cells w h)) :=
      shaped_randomize rnd w h
    unfold set_neighbors
    have hchar := foldl_modify2_char shape (fun a p => wireCell a p.1 p.2)
      (randomize_cells rnd w h (create_cells w h))
      (fun a p hsh => wireCell_congr hsh p.1 p.2)
      (fun a p hsh => by rw [shape_modify2]; exact hsh)
      (allCoords w h) (nodup_allCoords w h) _ rfl (fun _ _ => rfl) u v
    rw [hchar]
    by_cases hb : u < w ∧ v < h
    · rw [if_pos (mem_allCoords.mpr hb), getCell_randomize, if_pos hb, if_pos hb]
      simp only [Option.map_some']
      congr 1
      obtain ⟨hx, hy, hst, hns⟩ := wireCell_fields
        (randomize_cells rnd w h (create_cells w h)) u v
        { x := u, y := v, state := rnd u v, new_state := none,
          neighbors := Neighbors.empty }
      refine cell_ext hx hy hst hns ?_
      apply neighbors_ext_get
      intro d
      rw [wireCell_get, initNeighbors_get]
      unfold neighborEntry
      by_cases hok : inBoundsCand w h u v d
      · rw [if_pos ((okDir_iff_inBounds hsR u v d).mpr hok), if_pos hok]
      · rw [if_neg (fun hc => hok ((okDir_iff_inBounds hsR u v d).mp hc)),
          if_neg hok]
        cases d <;> rfl
    · rw [if_neg (fun hc => hb (mem_allCoords.mp hc)), getCell_randomize,
        if_neg hb, if_neg hb]
  exact hmain width.toNat height.toNat

theorem shaped_init (width height : Int) (rnd : Nat → Nat → Bool) :
    Shaped width.toNat height.toNat (Life.init width height rnd).cells := by
  show Shaped _ _ (set_neighbors _ _ (randomize_cells rnd _ _ (create_cells _ _)))
  unfold Shaped set_neighbors
  rw [shape_foldl_modify2]
  exact shaped_randomize rnd _ _

theorem init_width (width height : Int) (rnd : Nat → Nat → Bool) :
    (Life.init width height rnd).width = width := rfl

theorem init_height (width height : Int) (rnd : Nat → Nat → Bool) :
    (Life.init width height rnd).height = height := rfl

theorem computeCell_eq (cs : List (List Cell)) (c : Cell) :
    computeCell cs c =
      c.set_new_state (nextStateVal c.state (count_live_neighbors cs c)) := by
  simp only [computeCell, nextStateVal]
  split_ifs <;> rfl

theorem computeCell_state (cs : List (List Cell)) (c : Cell) :
    (computeCell cs c).state = c.state := by
  rw [computeCell_eq]; rfl

theorem computeCell_new_state (cs : List (List Cell)) (c : Cell) :
    (computeCell cs c).new_state
      = some (nextStateVal c.state (count_live_neighbors cs c)) := by
  rw [computeCell_eq]; rfl

theorem computeCell_congr {cs cs0 : List (List Cell)}
    (h : stateView cs = stateView cs0) : computeCell cs = computeCell cs0 := by
  funext c
  rw [computeCell_eq, computeCell_eq, count_live_neighbors_congr h]

theorem stateView_modify2_of_state_eq (cs : List (List Cell)) (x y : Nat)
    {f : Cell → Cell} (hf : ∀ c, (f c).state = c.state) :
    stateView (modify2 cs x y f) = stateView cs := by
  unfold stateView modify2
  apply List.ext_getElem?
  intro i
  rw [List.getElem?_map, List.getElem?_map, getElem?_listModify]
  by_cases hx : x = i
  · subst hx
    rw [if_pos rfl]
    cases h : cs[x]? with
    | none => rfl
    | some row =>
      simp only [Option.map_some']
      congr 1
      apply List.ext_getElem?
      intro j
      rw [List.getElem?_map, List.getElem?_map, getElem?_listModify]
      by_cases hy : y = j
      · rw [if_pos hy]
        cases hr : row[j]? with
        | none => rfl
        | some c => simp [hf c]
      · rw [if_neg hy]
  · rw [if_neg hx]

theorem listModify_congr {α : Type} {f g : α → α} (i : Nat) (l : List α)
    (hfg : ∀ a, l[i]? = some a → f a = g a) :
    listModify f i l = listModify g i l := by
  induction l generalizing i with
  | nil => cases i <;> rfl
  | cons a as ih =>
    cases i with
    | zero =>
      simp only [listModify]
      rw [hfg a (by simp)]
    | succ i =>
      simp only [listModify]
      rw [ih i (fun a ha => hfg a (by simpa using ha))]

theorem modify2_congr (cs : List (List Cell)) (x y : Nat) {f g : Cell → Cell}
    (hfg : ∀ c, getCell cs x y = some c → f c = g c) :
    modify2 cs x y f = modify2 cs x y g := by
  unfold modify2
  apply listModify_congr
  intro row hrow
  apply listModify_congr
  intro c hc
  apply hfg
  unfold getCell
  rw [hrow]
  exact hc

theorem advCell_eq (cs : List (List Cell)) (c : Cell) :
    advCell cs c =
      { c with state := nextStateVal c.state (count_live_neighbors cs c),
               new_state := some (nextStateVal c.state (count_live_neighbors cs c)) } := by
  unfold advCell applyCell
  rw [computeCell_eq]
  rfl

theorem applyCell_new_state (c : Cell) : (applyCell c).new_state = c.new_state := by
  cases c with
  | mk x y st ns nb => cases ns <;> rfl

theorem getCell_some_of_bounds {w h : Nat} {cs : List (List Cell)}
    (hs : Shaped w h cs) {u v : Nat} (hu : u < w) (hv : v < h) :
    ∃ c, getCell cs u v = some c := by
  have := (getCell_isSome_iff hs u v).mpr ⟨hu, hv⟩
  exact Option.isSome_iff_exists.mp this

theorem shaped_modify2 {w h : Nat} {cs : List (List Cell)} (hs : Shaped w h cs)
    (x y : Nat) (f : Cell → Cell) : Shaped w h (modify2 cs x y f) := by
  unfold Shaped
  rw [shape_modify2]
  exact hs

/-- The monadic compute pass never fails over a well-shaped grid and agrees
with the pure in-place sweep. -/
theorem computeM_eq {w h : Nat} :
    ∀ ps : List (Nat × Nat), (∀ p ∈ ps, p.1 < w ∧ p.2 < h) →
    ∀ a : List (List Cell), Shaped w h a →
      List.foldlM computeStepM a ps
        = some (ps.foldl (fun a p => modify2 a p.1 p.2 (fun c => computeCell a c)) a) := by
  intro ps
  induction ps with
  | nil => intro _ a _; rfl
  | cons p ps ih =>
    intro hb a hsa
    obtain ⟨c, hc⟩ := getCell_some_of_bounds hsa (hb p (List.mem_cons_self _ _)).1
      (hb p (List.mem_cons_self _ _)).2
    have hstep : computeStepM a p
        = some (modify2 a p.1 p.2 (fun c0 => computeCell a c0)) := by
      unfold computeStepM
      rw [hc]
      show some (modify2 a p.1 p.2 (fun _ => computeCell a c)) = _
      congr 1
      apply modify2_congr
      intro c0 hc0
      rw [hc] at hc0
      cases hc0
      rfl
    rw [List.foldlM_cons, hstep]
    show List.foldlM computeStepM _ ps = _
    rw [ih (fun q hq => hb q (List.mem_cons_of_mem p hq)) _
      (shaped_modify2 hsa p.1 p.2 _), List.foldl_cons]

/-- The monadic apply pass never fails when every visited cell has a staged
new_state, and agrees with the pure in-place sweep of Cell.apply_new_state. -/
theorem applyM_eq {w h : Nat} :
    ∀ ps : List (Nat × Nat), (∀ p ∈ ps, p.1 < w ∧ p.2 < h) →
    ∀ a : List (List Cell), Shaped w h a →
      (∀ p ∈ ps, ∀ c, getCell a p.1 p.2 = some c → c.new_state.isSome = true) →
      List.foldlM applyStepM a ps
        = some (ps.foldl (fun a p => modify2 a p.1 p.2 applyCell) a) := by
  intro ps
  induction ps with
  | nil => intro _ a _ _; rfl
  | cons p ps ih =>
    intro hb a hsa hstg
    obtain ⟨c, hc⟩ := getCell_some_of_bounds hsa (hb p (List.mem_cons_self _ _)).1
      (hb p (List.mem_cons_self _ _)).2
    obtain ⟨b, hbs⟩ := Option.isSome_iff_exists.mp
      (hstg p (List.mem_cons_self _ _) c hc)
    have hstep : applyStepM a p = some (modify2 a p.1 p.2 applyCell) := by
      unfold applyStepM
      rw [hc]
      show (c.new_state.bind fun b =>
        some (modify2 a p.1 p.2 (fun c0 => { c0 with state := b }))) = _
      rw [hbs]
      show some (modify2 a p.1 p.2 (fun c0 => { c0 with state := b })) = _
      congr 1
      apply modify2_congr
      intro c0 hc0
      rw [hc] at hc0
      cases hc0
      unfold applyCell
      rw [hbs]
    rw [List.foldlM_cons, hstep]
    show List.foldlM applyStepM _ ps = _
    have hstg2 : ∀ q ∈ ps, ∀ c2, getCell (modify2 a p.1 p.2 applyCell) q.1 q.2
        = some c2 → c2.new_state.isSome = true := by
      intro q hq c2 hc2
      rw [getCell_modify2] at hc2
      by_cases hpq : p.1 = q.1 ∧ p.2 = q.2
      · rw [if_pos hpq] at hc2
        obtain ⟨c3, hc3, hrw⟩ := Option.map_eq_some'.mp hc2
        have h5 := hstg q (List.mem_cons_of_mem p hq) c3 hc3
        rw [← hrw, applyCell_new_state]
        exact h5
      · rw [if_neg hpq] at hc2
        exact hstg q (List.mem_cons_of_mem p hq) c2 hc2
    rw [ih (fun q hq => hb q (List.mem_cons_of_mem p hq)) _
      (shaped_modify2 hsa p.1 p.2 _) hstg2, List.foldl_cons]

/-- Master characterization of Life.next_generation over a well-shaped grid:
the call succeeds, preserves the dimensions and the grid shape, and acts on
every coordinate as the pointwise map advCell computed against the pre-call
snapshot of the grid. -/
theorem next_generation_char (g : Life)
    (hs : Shaped g.width.toNat g.height.toNat g.cells) :
    ∃ cs2 : List (List Cell),
      next_generation g = some { width := g.width, height := g.height, cells := cs2 } ∧
      Shaped g.width.toNat g.height.toNat cs2 ∧
      ∀ u v, getCell cs2 u v = (getCell g.cells u v).map (advCell g.cells) := by
  have hbounds : ∀ p ∈ allCoords g.width.toNat g.height.toNat,
      p.1 < g.width.toNat ∧ p.2 < g.height.toNat := fun p hp => mem_allCoords.mp hp
  have hcompM := computeM_eq (allCoords g.width.toNat g.height.toNat) hbounds g.cells hs
  have hchar1 := foldl_modify2_char stateView (fun a _ c => computeCell a c) g.cells
    (fun a p hv => by
      have := computeCell_congr hv
      simp only [this])
    (fun a p hv => by
      rw [stateView_modify2_of_state_eq a p.1 p.2 (computeCell_state g.cells)]
      exact hv)
    (allCoords g.width.toNat g.height.toNat)
    (nodup_allCoords g.width.toNat g.height.toNat) g.cells rfl (fun _ _ => rfl)
  have hnone : ∀ u v, ¬(u < g.width.toNat ∧ v < g.height.toNat) →
      getCell g.cells u v = none := by
    intro u v hb
    cases hg : getCell g.cells u v with
    | none => rfl
    | some c =>
      exact absurd (getCell_some_bounds hs hg) hb
  have hchar1' : ∀ u v,
      getCell (List.foldl (fun a p => modify2 a p.1 p.2 (fun c => computeCell a c))
          g.cells (allCoords g.width.toNat g.height.toNat)) u v
        = (getCell g.cells u v).map (computeCell g.cells) := by
    intro u v
    rw [hchar1 u v]
    by_cases hm : (u, v) ∈ allCoords g.width.toNat g.height.toNat
    · rw [if_pos hm]
    · rw [if_neg hm, hnone u v (fun hb => hm (mem_allCoords.mpr hb))]
      rfl
  have hs1 : Shaped g.width.toNat g.height.toNat
      (List.foldl (fun a p => modify2 a p.1 p.2 (fun c => computeCell a c))
        g.cells (allCoords g.width.toNat g.height.toNat)) := by
    unfold Shaped
    rw [shape_foldl_modify2]
    exact hs
  have hstaged : ∀ p ∈ allCoords g.width.toNat g.height.toNat, ∀ c,
      getCell (List.foldl (fun a p => modify2 a p.1 p.2 (fun c => computeCell a c))
        g.cells (allCoords g.width.toNat g.height.toNat)) p.1 p.2 = some c →
      c.new_state.isSome = true := by
    intro p _ c hc
    rw [hchar1' p.1 p.2] at hc
    obtain ⟨c0, _, hrw⟩ := Option.map_eq_some'.mp hc
    rw [← hrw, computeCell_new_state]
    rfl
  have happM := applyM_eq (allCoords g.width.toNat g.height.toNat) hbounds _ hs1 hstaged
  have hchar2 := foldl_modify2_char (fun _ => ()) (fun _ _ => applyCell)
    (List.foldl (fun a p => modify2 a p.1 p.2 (fun c => computeCell a c))
      g.cells (allCoords g.width.toNat g.height.toNat))
    (fun _ _ _ => rfl) (fun _ _ _ => rfl)
    (allCoords g.width.toNat g.height.toNat)
    (nodup_allCoords g.width.toNat g.height.toNat) _ rfl (fun _ _ => rfl)
  refine ⟨List.foldl (fun a p => modify2 a p.1 p.2 applyCell)
      (List.foldl (fun a p => modify2 a p.1 p.2 (fun c => computeCell a c))
        g.cells (allCoords g.width.toNat g.height.toNat))
      (allCoords g.width.toNat g.height.toNat), ?_, ?_, ?_⟩
  · show next_generation g = _
    have h1 : next_generation g
        = (List.foldlM applyStepM
            (List.foldl (fun a p => modify2 a p.1 p.2 (fun c => computeCell a c))
              g.cells (allCoords g.width.toNat g.height.toNat))
            (allCoords g.width.toNat g.height.toNat)).bind
          (fun cs2 => some { width := g.width, height := g.height, cells := cs2 }) := by
      simp only [next_generation]
      rw [hcompM]
      rfl
    rw [h1, happM]
    rfl
  · unfold Shaped
    rw [shape_foldl_modify2]
    exact hs1
  · intro u v
    rw [hchar2 u v]
    by_cases hm : (u, v) ∈ allCoords g.width.toNat g.height.toNat
    · rw [if_pos hm, hchar1' u v, Option.map_map]
      rfl
    · rw [if_neg hm, hchar1' u v,
        hnone u v (fun hb => hm (mem_allCoords.mpr hb))]
      rfl

theorem sum_map_eq_countP {α : Type} (p : α → Bool) (l : List α) :
    (l.map (fun a => (p a).toNat)).sum = l.countP p := by
  induction l with
  | nil => rfl
  | cons a l ih =>
    rw [List.map_cons, List.sum_cons, List.countP_cons, ih]
    by_cases hp : p a = true
    · rw [if_pos hp, hp, Bool.toNat_true]
      omega
    · rw [if_neg hp, Bool.eq_false_iff.mpr hp, Bool.toNat_false]
      omega

theorem liveContribution_eq_liveB (cs : List (List Cell)) (r : Option (Nat × Nat)) :
    liveContribution cs r = (liveB cs r).toNat := by
  cases r with
  | none => rfl
  | some q =>
    simp only [liveContribution, liveB]
    cases hg : getCell cs q.1 q.2 with
    | none => rfl
    | some nb =>
      cases hn : nb.state
      · simp [hn]
      · simp [hn]

theorem count_live_eq_countP (cs : List (List Cell)) (c : Cell) :
    count_live_neighbors cs c
      = dirList.countP (fun d => liveB cs (c.neighbors.get d)) := by
  unfold count_live_neighbors
  rw [← sum_map_eq_countP]
  congr 1
  apply List.map_congr_left
  intro d _
  exact liveContribution_eq_liveB cs (c.neighbors.get d)

theorem count_live_le_eight (cs : List (List Cell)) (c : Cell) :
    count_live_neighbors cs c ≤ 8 := by
  rw [count_live_eq_countP]
  exact List.countP_le_length _

theorem allDead_iff (cs : List (List Cell)) :
    allDead cs = true ↔ ∀ u v c, getCell cs u v = some c → c.state = false := by
  unfold allDead
  rw [List.all_eq_true]
  constructor
  · intro hall u v c hc
    unfold getCell at hc
    cases hrow : cs[u]? with
    | none => rw [hrow] at hc; exact absurd hc (by simp)
    | some row =>
      rw [hrow] at hc
      have hr : row ∈ cs := by
        have := List.getElem?_eq_some.mp hrow
        rw [← this.2]
        exact List.getElem_mem _
      have := List.all_eq_true.mp (hall row hr) c (by
        have := List.getElem?_eq_some.mp hc
        rw [← this.2]
        exact List.getElem_mem _)
      simpa using this
  · intro hdead row hrow
    rw [List.all_eq_true]
    intro c hc
    obtain ⟨u, hu⟩ := List.mem_iff_getElem?.mp hrow
    obtain ⟨v, hv⟩ := List.mem_iff_getElem?.mp hc
    have : getCell cs u v = some c := by
      unfold getCell
      rw [hu]
      exact hv
    simpa using hdead u v c this

theorem count_live_of_allDead {cs : List (List Cell)} (hd : allDead cs = true)
    (c : Cell) : count_live_neighbors cs c = 0 := by
  rw [count_live_eq_countP]
  rw [List.countP_eq_zero]
  intro d _
  cases hr : c.neighbors.get d with
  | none => simp [liveB]
  | some q =>
    simp only [liveB]
    cases hg : getCell cs q.1 q.2 with
    | none => simp
    | some nb =>
      have := (allDead_iff cs).mp hd q.1 q.2 nb hg
      simp [this]

theorem nextStateVal_true_iff (s : Bool) (n : Nat) :
    nextStateVal s n = true ↔
      ((s = true ∧ (n = 2 ∨ n = 3)) ∨ (s = false ∧ n = 3)) := by
  cases s
  · simp only [nextStateVal, Bool.false_eq_true, false_and, false_or, true_and,
      if_false]
    split_ifs with h3
    · simp [h3]
    · simp [h3]
  · simp only [nextStateVal, Bool.true_eq_false, false_and, or_false, true_and,
      if_true]
    split_ifs with h2
    · constructor
      · intro hh
        exact absurd hh (by simp)
      · omega
    · simp
      omega

theorem cells_ext {cs1 cs2 : List (List Cell)} (hsh : shape cs1 = shape cs2)
    (hg : ∀ u v, getCell cs1 u v = getCell cs2 u v) : cs1 = cs2 := by
  apply List.ext_getElem?
  intro i
  have hrow : cs1[i]?.map List.length = cs2[i]?.map List.length := by
    have := congrArg (fun l => l[i]?) hsh
    simpa [shape, List.getElem?_map] using this
  cases h1 : cs1[i]? with
  | none =>
    cases h2 : cs2[i]? with
    | none => rfl
    | some r2 => rw [h1, h2] at hrow; simp at hrow
  | some r1 =>
    cases h2 : cs2[i]? with
    | none => rw [h1, h2] at hrow; simp at hrow
    | some r2 =>
      rw [h1, h2] at hrow
      simp only [Option.map_some', Option.some_inj] at hrow
      congr 1
      apply List.ext_getElem?
      intro j
      have := hg i j
      unfold getCell at this
      rw [h1, h2] at this
      exact this

theorem inBoundsCand_N (w h x y : Nat) :
    inBoundsCand w h x y Direction.N ↔ (x < w ∧ y + 1 < h) := by
  simp only [inBoundsCand, directions]
  omega

theorem inBoundsCand_NW (w h x y : Nat) :
    inBoundsCand w h x y Direction.NW ↔ (1 ≤ x ∧ x - 1 < w ∧ y + 1 < h) := by
  simp only [inBoundsCand, directions]
  omega

theorem inBoundsCand_W (w h x y : Nat) :
    inBoundsCand w h x y Direction.W ↔ (1 ≤ x ∧ x - 1 < w ∧ y < h) := by
  simp only [inBoundsCand, directions]
  omega

theorem inBoundsCand_SW (w h x y : Nat) :
    inBoundsCand w h x y Direction.SW ↔ (1 ≤ x ∧ 1 ≤ y ∧ x - 1 < w ∧ y - 1 < h) := by
  simp only [inBoundsCand, directions]
  omega

theorem inBoundsCand_S (w h x y : Nat) :
    inBoundsCand w h x y Direction.S ↔ (1 ≤ y ∧ x < w ∧ y - 1 < h) := by
  simp only [inBoundsCand, directions]
  omega

theorem inBoundsCand_SE (w h x y : Nat) :
    inBoundsCand w h x y Direction.SE ↔ (1 ≤ y ∧ x + 1 < w ∧ y - 1 < h) := by
  simp only [inBoundsCand, directions]
  omega

theorem inBoundsCand_E (w h x y : Nat) :
    inBoundsCand w h x y Direction.E ↔ (x + 1 < w ∧ y < h) := by
  simp only [inBoundsCand, directions]
  omega

theorem inBoundsCand_NE (w h x y : Nat) :
    inBoundsCand w h x y Direction.NE ↔ (x + 1 < w ∧ y + 1 < h) := by
  simp only [inBoundsCand, directions]
  omega

theorem neighborEntry_isSome (w h x y : Nat) (d : Direction) :
    (neighborEntry w h x y d).isSome = decide (inBoundsCand w h x y d) := by
  unfold neighborEntry
  by_cases hd : inBoundsCand w h x y d
  · rw [if_pos hd, decide_eq_true hd]
    rfl
  · rw [if_neg hd, decide_eq_false hd]
    rfl

/-- Iterating next_generation from a well-shaped grid: the iterate succeeds,
keeps the dimensions, and per coordinate composes advCell maps. -/
theorem advanceN_char (k : Nat) :
    ∀ g : Life, Shaped g.width.toNat g.height.toNat g.cells →
    ∃ g1 : Life, advanceN k g = some g1 ∧
      g1.width = g.width ∧ g1.height = g.height ∧
      Shaped g.width.toNat g.height.toNat g1.cells ∧
      ∀ u v, (getCell g1.cells u v).isSome = (getCell g.cells u v).isSome ∧
        ((getCell g1.cells u v).map (fun c => (c.x, c.y, c.neighbors))
          = (getCell g.cells u v).map (fun c => (c.x, c.y, c.neighbors))) := by
  induction k with
  | zero =>
    intro g hs
    exact ⟨g, rfl, rfl, rfl, hs, fun u v => ⟨rfl, rfl⟩⟩
  | succ k ih =>
    intro g hs
    obtain ⟨cs2, hng, hs2, hchar⟩ := next_generation_char g hs
    obtain ⟨g1, hadv, hw1, hh1, hs1, hxy⟩ :=
      ih { width := g.width, height := g.height, cells := cs2 } hs2
    refine ⟨g1, ?_, hw1, hh1, hs1, ?_⟩
    · show advanceN (k + 1) g = some g1
      unfold advanceN
      rw [hng]
      exact hadv
    · intro u v
      obtain ⟨hsome, hmap⟩ := hxy u v
      rw [hchar u v] at hsome hmap
      constructor
      · rw [hsome]
        cases getCell g.cells u v <;> rfl
      · rw [hmap]
        cases hg : getCell g.cells u v with
        | none => rfl
        | some c =>
          simp only [Option.map_some']
          rw [advCell_eq]

/-- C1: for every grid and every cell (x, y), after one call to
next_generation() the cell's alive state equals Conway's rule applied to the
pre-call snapshot: alive afterwards iff (it was alive with live-neighbor
count 2 or 3) or (it was dead with live-neighbor count exactly 3), the count
taken from the states before the call (synchronous update). -/
theorem C1_next_generation_conway (g g1 : Life)
    (hs : Shaped g.width.toNat g.height.toNat g.cells)
    (hng : next_generation g = some g1)
    (x y : Nat) (c : Cell) (hc : getCell g.cells x y = some c) :
    ∃ c1, getCell g1.cells x y = some c1 ∧
      (c1.state = true ↔
        ((c.state = true ∧
            (count_live_neighbors g.cells c = 2 ∨ count_live_neighbors g.cells c = 3)) ∨
         (c.state = false ∧ count_live_neighbors g.cells c = 3))) := by
  obtain ⟨cs2, hng2, _, hchar⟩ := next_generation_char g hs
  rw [hng2] at hng
  have hg1 : g1.cells = cs2 := by
    cases hng
    rfl
  refine ⟨advCell g.cells c, ?_, ?_⟩
  · rw [hg1, hchar x y, hc]
    rfl
  · rw [advCell_eq]
    exact nextStateVal_true_iff c.state (count_live_neighbors g.cells c)

theorem C1_witness :
    ∃ c1, getCell ((next_generation (Life.init 2 2 (fun _ _ => true))).getD
        (Life.init 2 2 (fun _ _ => true))).cells 0 0 = some c1 ∧
      (c1.state = true ↔
        ((((getCell (Life.init 2 2 (fun _ _ => true)).cells 0 0).getD
              (Cell.init 0 0 false)).state = true ∧
            (count_live_neighbors (Life.init 2 2 (fun _ _ => true)).cells
                ((getCell (Life.init 2 2 (fun _ _ => true)).cells 0 0).getD
                  (Cell.init 0 0 false)) = 2 ∨
             count_live_neighbors (Life.init 2 2 (fun _ _ => true)).cells
                ((getCell (Life.init 2 2 (fun _ _ => true)).cells 0 0).getD
                  (Cell.init 0 0 false)) = 3)) ∨
         (((getCell (Life.init 2 2 (fun _ _ => true)).cells 0 0).getD
              (Cell.init 0 0 false)).state = false ∧
          count_live_neighbors (Life.init 2 2 (fun _ _ => true)).cells
              ((getCell (Life.init 2 2 (fun _ _ => true)).cells 0 0).getD
                (Cell.init 0 0 false)) = 3))) :=
  C1_next_generation_conway (Life.init 2 2 (fun _ _ => true))
    ((next_generation (Life.init 2 2 (fun _ _ => true))).getD
      (Life.init 2 2 (fun _ _ => true)))
    (by decide) (by decide) 0 0
    ((getCell (Life.init 2 2 (fun _ _ => true)).cells 0 0).getD (Cell.init 0 0 false))
    (by decide)

/-- C2 (code_bug evidence): Life.__init__ performs no validation of the
dimensions; with non-positive width or height every loop is over an empty
range, so construction succeeds and silently yields a Life object whose
cells list is empty - it is not rejected, contrary to the claim. -/
theorem C2_nonpositive_dimensions_not_rejected :
    (Life.init 0 5 (fun _ _ => false)).cells = [] ∧
    (Life.init 0 5 (fun _ _ => false)).width = 0 ∧
    (Life.init (-3) (-1) (fun _ _ => false)).cells = [] ∧
    (Life.init (-3) (-1) (fun _ _ => false)).width = -3 ∧
    (Life.init 5 0 (fun _ _ => false)).cells =
      [[], [], [], [], []] := by
  refine ⟨?_, rfl, ?_, rfl, ?_⟩ <;> rfl

/-- C5: for every constructed grid, next_generation() cannot fail: the
compute pass stages a new state for every cell before any apply step runs,
so the apply pass never reads an unset staged state, and every lookup is in
bounds (in the embedding, a failure of either kind would surface as none). -/
theorem C5_next_generation_total (width height : Int) (rnd : Nat → Nat → Bool) :
    (next_generation (Life.init width height rnd)).isSome = true := by
  obtain ⟨cs2, hng, _, _⟩ :=
    next_generation_char (Life.init width height rnd)
      (shaped_init width height rnd)
  rw [hng]
  rfl

theorem directions_reverseDir (d : Direction) :
    directions (reverseDir d) = (-(directions d).1, -(directions d).2) := by
  cases d <;> decide

/-- C3: for every cell (x, y) of a constructed grid and every compass
direction with offset (dx, dy), the neighbor slot is assigned iff
0 <= x+dx < width and 0 <= y+dy < height (both sides excluded), and when
assigned it holds the reference to the cell at coordinate (x+dx, y+dy);
the out-of-range candidates are skipped during construction, which is a
total function, so no failure reaches the caller. -/
theorem C3_neighbor_wiring (width height : Int) (rnd : Nat → Nat → Bool)
    (x y : Nat) (c : Cell)
    (hc : getCell (Life.init width height rnd).cells x y = some c)
    (d : Direction) :
    ((c.neighbors.get d).isSome = true ↔
      (0 ≤ (x : Int) + (directions d).1 ∧ (x : Int) + (directions d).1 < width ∧
       0 ≤ (y : Int) + (directions d).2 ∧ (y : Int) + (directions d).2 < height)) ∧
    (∀ q : Nat × Nat, c.neighbors.get d = some q →
      ((q.1 : Int) = (x : Int) + (directions d).1 ∧
       (q.2 : Int) = (y : Int) + (directions d).2 ∧
       ∃ c2, getCell (Life.init width height rnd).cells q.1 q.2 = some c2 ∧
         c2.x = q.1 ∧ c2.y = q.2)) := by
  rw [getCell_init] at hc
  by_cases hb : x < width.toNat ∧ y < height.toNat
  · rw [if_pos hb] at hc
    have hcc := Option.some_inj.mp hc
    subst hcc
    constructor
    · show ((initNeighbors width.toNat height.toNat x y).get d).isSome = true ↔ _
      rw [initNeighbors_get, neighborEntry_isSome, decide_eq_true_eq]
      unfold inBoundsCand
      omega
    · intro q hq
      have hq2 : neighborEntry width.toNat height.toNat x y d = some q := by
        rw [← initNeighbors_get]
        exact hq
      unfold neighborEntry at hq2
      by_cases hin : inBoundsCand width.toNat height.toNat x y d
      · rw [if_pos hin] at hq2
        have hqc := (Option.some_inj.mp hq2).symm
        have hq1 : q.1 = ((x : Int) + (directions d).1).toNat := by
          rw [hqc]; rfl
        have hq2b : q.2 = ((y : Int) + (directions d).2).toNat := by
          rw [hqc]; rfl
        unfold inBoundsCand at hin
        refine ⟨by omega, by omega, ?_⟩
        rw [getCell_init, if_pos (by omega)]
        exact ⟨_, rfl, rfl, rfl⟩
      · rw [if_neg hin] at hq2
        exact absurd hq2 (by simp)
  · rw [if_neg hb] at hc
    exact absurd hc (by simp)

theorem C3_witness :
    ((((getCell (Life.init 2 2 (fun _ _ => false)).cells 0 0).getD
          (Cell.init 0 0 false)).neighbors.get Direction.N).isSome = true ↔
      (0 ≤ ((0 : Nat) : Int) + (directions Direction.N).1 ∧
       ((0 : Nat) : Int) + (directions Direction.N).1 < 2 ∧
       0 ≤ ((0 : Nat) : Int) + (directions Direction.N).2 ∧
       ((0 : Nat) : Int) + (directions Direction.N).2 < 2)) ∧
    (∀ q : Nat × Nat,
      ((getCell (Life.init 2 2 (fun _ _ => false)).cells 0 0).getD
          (Cell.init 0 0 false)).neighbors.get Direction.N = some q →
      ((q.1 : Int) = ((0 : Nat) : Int) + (directions Direction.N).1 ∧
       (q.2 : Int) = ((0 : Nat) : Int) + (directions Direction.N).2 ∧
       ∃ c2, getCell (Life.init 2 2 (fun _ _ => false)).cells q.1 q.2 = some c2 ∧
         c2.x = q.1 ∧ c2.y = q.2)) :=
  C3_neighbor_wiring 2 2 (fun _ _ => false) 0 0
    ((getCell (Life.init 2 2 (fun _ _ => false)).cells 0 0).getD (Cell.init 0 0 false))
    (by decide) Direction.N

/-- C4: neighbor edges of a constructed grid are symmetric: if cell A holds
cell B as its neighbor in direction d, then B holds A as its neighbor in the
reverse compass direction of d. -/
theorem C4_neighbor_symmetry (width height : Int) (rnd : Nat → Nat → Bool)
    (x y : Nat) (a : Cell)
    (ha : getCell (Life.init width height rnd).cells x y = some a)
    (d : Direction) (q : Nat × Nat) (hq : a.neighbors.get d = some q)
    (b : Cell)
    (hb : getCell (Life.init width height rnd).cells q.1 q.2 = some b) :
    b.neighbors.get (reverseDir d) = some (x, y) := by
  have hrev1 : (directions (reverseDir d)).1 = -(directions d).1 := by
    rw [directions_reverseDir]
  have hrev2 : (directions (reverseDir d)).2 = -(directions d).2 := by
    rw [directions_reverseDir]
  rw [getCell_init] at ha hb
  by_cases hax : x < width.toNat ∧ y < height.toNat
  case neg =>
    rw [if_neg hax] at ha
    exact absurd ha (by simp)
  rw [if_pos hax] at ha
  have haa := Option.some_inj.mp ha
  subst haa
  have hq2 : neighborEntry width.toNat height.toNat x y d = some q := by
    rw [← initNeighbors_get]
    exact hq
  unfold neighborEntry at hq2
  by_cases hin : inBoundsCand width.toNat height.toNat x y d
  case neg =>
    rw [if_neg hin] at hq2
    exact absurd hq2 (by simp)
  rw [if_pos hin] at hq2
  have hqc := (Option.some_inj.mp hq2).symm
  have hq1 : q.1 = ((x : Int) + (directions d).1).toNat := by
    rw [hqc]; rfl
  have hq2b : q.2 = ((y : Int) + (directions d).2).toNat := by
    rw [hqc]; rfl
  unfold inBoundsCand at hin
  by_cases hbx : q.1 < width.toNat ∧ q.2 < height.toNat
  case neg =>
    rw [if_neg hbx] at hb
    exact absurd hb (by simp)
  rw [if_pos hbx] at hb
  have hbb := Option.some_inj.mp hb
  subst hbb
  show (initNeighbors width.toNat height.toNat q.1 q.2).get (reverseDir d)
    = some (x, y)
  rw [initNeighbors_get]
  unfold neighborEntry
  rw [if_pos (show inBoundsCand width.toNat height.toNat q.1 q.2 (reverseDir d) by
    unfold inBoundsCand
    rw [hrev1, hrev2]
    omega)]
  show some (candidate q.1 q.2 (reverseDir d)) = some (x, y)
  congr 1
  unfold candidate
  rw [hrev1, hrev2]
  have e1 : ((q.1 : Int) + -(directions d).1).toNat = x := by omega
  have e2 : ((q.2 : Int) + -(directions d).2).toNat = y := by omega
  rw [e1, e2]

theorem C4_witness :
    ((getCell (Life.init 2 2 (fun _ _ => false)).cells 0 1).getD
        (Cell.init 0 0 false)).neighbors.get (reverseDir Direction.N)
      = some (0, 0) :=
  C4_neighbor_symmetry 2 2 (fun _ _ => false) 0 0
    ((getCell (Life.init 2 2 (fun _ _ => false)).cells 0 0).getD (Cell.init 0 0 false))
    (by decide) Direction.N (0, 1) (by decide)
    ((getCell (Life.init 2 2 (fun _ _ => false)).cells 0 1).getD (Cell.init 0 0 false))
    (by decide)

/-- C6: any number of next_generation() calls leaves width and height
unchanged and preserves the set of coordinates with defined cells, each cell
keeping its (x, y) (and even its neighbors dict): no cells are created or
destroyed, only their states are updated. -/
theorem C6_frame_invariance (width height : Int) (rnd : Nat → Nat → Bool)
    (k : Nat) :
    ∃ g1 : Life, advanceN k (Life.init width height rnd) = some g1 ∧
      g1.width = width ∧ g1.height = height ∧
      ∀ u v, ((getCell g1.cells u v).isSome
          = (getCell (Life.init width height rnd).cells u v).isSome) ∧
        (getCell g1.cells u v).map (fun c => (c.x, c.y, c.neighbors))
          = (getCell (Life.init width height rnd).cells u v).map
              (fun c => (c.x, c.y, c.neighbors)) := by
  obtain ⟨g1, hadv, hw, hh, _, hxy⟩ :=
    advanceN_char k (Life.init width height rnd) (shaped_init width height rnd)
  exact ⟨g1, hadv, hw, hh, hxy⟩

theorem advanceN_allDead (k : Nat) :
    ∀ g : Life, Shaped g.width.toNat g.height.toNat g.cells →
    allDead g.cells = true →
    ∃ g1, advanceN k g = some g1 ∧ allDead g1.cells = true := by
  induction k with
  | zero => intro g _ hd; exact ⟨g, rfl, hd⟩
  | succ k ih =>
    intro g hs hd
    obtain ⟨cs2, hng, hs2, hchar⟩ := next_generation_char g hs
    have hd2 : allDead cs2 = true := by
      rw [allDead_iff]
      intro u v c hc
      rw [hchar u v] at hc
      obtain ⟨c0, hc0, hrw⟩ := Option.map_eq_some'.mp hc
      have hc0dead := (allDead_iff _).mp hd u v c0 hc0
      rw [← hrw, advCell_eq]
      show nextStateVal c0.state (count_live_neighbors g.cells c0) = false
      rw [hc0dead, count_live_of_allDead hd]
      rfl
    obtain ⟨g1, hadv, hall⟩ :=
      ih { width := g.width, height := g.height, cells := cs2 } hs2 hd2
    refine ⟨g1, ?_, hall⟩
    show advanceN (k + 1) g = some g1
    unfold advanceN
    rw [hng]
    exact hadv

/-- C9: a grid in which every cell is dead stays all-dead after any number
of next_generation() calls (the all-dead configuration is a fixed point). -/
theorem C9_all_dead_fixed_point (width height : Int) (rnd : Nat → Nat → Bool)
    (k : Nat) (hd : allDead (Life.init width height rnd).cells = true) :
    ∃ g1, advanceN k (Life.init width height rnd) = some g1 ∧
      allDead g1.cells = true :=
  advanceN_allDead k (Life.init width height rnd)
    (shaped_init width height rnd) hd

theorem C9_witness :
    ∃ g1, advanceN 2 (Life.init 2 2 (fun _ _ => false)) = some g1 ∧
      allDead g1.cells = true :=
  C9_all_dead_fixed_point 2 2 (fun _ _ => false) 2 (by decide)

/-- C10: next_generation() is deterministic: two constructed grids with the
same dimensions and identical per-coordinate alive states advance to
identical per-coordinate alive states; no randomness influences advancement
after construction (the randomness oracle is consulted only by Life.init). -/
theorem C10_deterministic (width height : Int) (r1 r2 : Nat → Nat → Bool)
    (hst : ∀ u v, (getCell (Life.init width height r1).cells u v).map Cell.state
      = (getCell (Life.init width height r2).cells u v).map Cell.state) :
    ∃ g1 g2 : Life, next_generation (Life.init width height r1) = some g1 ∧
      next_generation (Life.init width height r2) = some g2 ∧
      ∀ u v, (getCell g1.cells u v).map Cell.state
        = (getCell g2.cells u v).map Cell.state := by
  have hcells : (Life.init width height r1).cells
      = (Life.init width height r2).cells := by
    apply cells_ext
    · have h1 := shaped_init width height r1
      have h2 := shaped_init width height r2
      unfold Shaped at h1 h2
      rw [h1, h2]
    · intro u v
      rw [getCell_init, getCell_init]
      by_cases hbv : u < width.toNat ∧ v < height.toNat
      · rw [if_pos hbv, if_pos hbv]
        have hstv := hst u v
        rw [getCell_init, getCell_init, if_pos hbv, if_pos hbv] at hstv
        simp only [Option.map_some', Option.some_inj] at hstv
        have hr : r1 u v = r2 u v := hstv
        rw [hr]
      · rw [if_neg hbv, if_neg hbv]
  have heq : Life.init width height r1 = Life.init width height r2 := by
    have e1 : Life.init width height r1
        = { width := width, height := height,
            cells := (Life.init width height r1).cells } := rfl
    have e2 : Life.init width height r2
        = { width := width, height := height,
            cells := (Life.init width height r2).cells } := rfl
    rw [e1, e2, hcells]
  obtain ⟨cs2, hng, _, _⟩ :=
    next_generation_char (Life.init width height r1) (shaped_init width height r1)
  refine ⟨_, _, hng, ?_, fun u v => rfl⟩
  rw [← heq]
  exact hng

theorem C10_witness :
    ∃ g1 g2 : Life, next_generation (Life.init 1 1 (fun _ _ => false)) = some g1 ∧
      next_generation (Life.init 1 1 (fun _ _ => false)) = some g2 ∧
      ∀ u v, (getCell g1.cells u v).map Cell.state
        = (getCell g2.cells u v).map Cell.state :=
  C10_deterministic 1 1 (fun _ _ => false) (fun _ _ => false) (fun _ _ => rfl)

set_option maxHeartbeats 1000000 in
/-- C7: in a constructed grid with width, height at least 2, the corner cell
(0,0) has exactly 3 assigned neighbor directions (E, N, NE), a cell on a
non-corner edge has exactly 5, and an interior cell has exactly 8. -/
theorem C7_boundary_neighbor_counts (width height : Int) (rnd : Nat → Nat → Bool)
    (hw : 2 ≤ width) (hh : 2 ≤ height) (x y : Nat) (c : Cell)
    (hc : getCell (Life.init width height rnd).cells x y = some c) :
    ((x = 0 ∧ y = 0) →
      assignedDirs c = 3 ∧
      (c.neighbors.get Direction.E).isSome = true ∧
      (c.neighbors.get Direction.N).isSome = true ∧
      (c.neighbors.get Direction.NE).isSome = true) ∧
    (((x = 0 ∨ x = width.toNat - 1 ∨ y = 0 ∨ y = height.toNat - 1) ∧
      ¬((x = 0 ∨ x = width.toNat - 1) ∧ (y = 0 ∨ y = height.toNat - 1))) →
      assignedDirs c = 5) ∧
    ((0 < x ∧ x < width.toNat - 1 ∧ 0 < y ∧ y < height.toNat - 1) →
      assignedDirs c = 8) := by
  rw [getCell_init] at hc
  by_cases hb : x < width.toNat ∧ y < height.toNat
  case neg =>
    rw [if_neg hb] at hc
    exact absurd hc (by simp)
  rw [if_pos hb] at hc
  have hcc := Option.some_inj.mp hc
  subst hcc
  have hget : ∀ d : Direction,
      ({ x := x, y := y, state := rnd x y, new_state := none,
         neighbors := initNeighbors width.toNat height.toNat x y } : Cell).neighbors.get d
        = neighborEntry width.toNat height.toNat x y d :=
    fun d => initNeighbors_get width.toNat height.toNat x y d
  have hassign : assignedDirs
      { x := x, y := y, state := rnd x y, new_state := none,
        neighbors := initNeighbors width.toNat height.toNat x y }
      = dirList.countP (fun d => decide (inBoundsCand width.toNat height.toNat x y d)) := by
    unfold assignedDirs
    apply List.countP_congr
    intro d _
    rw [hget d, neighborEntry_isSome]
  refine ⟨?_, ?_, ?_⟩
  · rintro ⟨rfl, rfl⟩
    refine ⟨?_, ?_, ?_, ?_⟩
    · rw [hassign]
      simp only [dirList, List.countP_cons, List.countP_nil, decide_eq_true_eq,
        inBoundsCand_N, inBoundsCand_NW, inBoundsCand_W, inBoundsCand_SW,
        inBoundsCand_S, inBoundsCand_SE, inBoundsCand_E, inBoundsCand_NE]
      split_ifs <;> omega
    · rw [hget, neighborEntry_isSome, decide_eq_true_eq, inBoundsCand_E]
      omega
    · rw [hget, neighborEntry_isSome, decide_eq_true_eq, inBoundsCand_N]
      omega
    · rw [hget, neighborEntry_isSome, decide_eq_true_eq, inBoundsCand_NE]
      omega
  · rintro ⟨hedge, hnc⟩
    rw [hassign]
    simp only [dirList, List.countP_cons, List.countP_nil, decide_eq_true_eq,
      inBoundsCand_N, inBoundsCand_NW, inBoundsCand_W, inBoundsCand_SW,
      inBoundsCand_S, inBoundsCand_SE, inBoundsCand_E, inBoundsCand_NE]
    split_ifs <;> omega
  · rintro ⟨h1, h2, h3, h4⟩
    rw [hassign]
    simp only [dirList, List.countP_cons, List.countP_nil, decide_eq_true_eq,
      inBoundsCand_N, inBoundsCand_NW, inBoundsCand_W, inBoundsCand_SW,
      inBoundsCand_S, inBoundsCand_SE, inBoundsCand_E, inBoundsCand_NE]
    rw [if_pos (show x < width.toNat ∧ y + 1 < height.toNat by omega),
      if_pos (show 1 ≤ x ∧ x - 1 < width.toNat ∧ y + 1 < height.toNat by omega),
      if_pos (show 1 ≤ x ∧ x - 1 < width.toNat ∧ y < height.toNat by omega),
      if_pos (show 1 ≤ x ∧ 1 ≤ y ∧ x - 1 < width.toNat ∧ y - 1 < height.toNat by omega),
      if_pos (show 1 ≤ y ∧ x < width.toNat ∧ y - 1 < height.toNat by omega),
      if_pos (show 1 ≤ y ∧ x + 1 < width.toNat ∧ y - 1 < height.toNat by omega),
      if_pos (show x + 1 < width.toNat ∧ y < height.toNat by omega),
      if_pos (show x + 1 < width.toNat ∧ y + 1 < height.toNat by omega)]

theorem C7_witness :
    assignedDirs ((getCell (Life.init 3 3 (fun _ _ => false)).cells 0 0).getD
        (Cell.init 0 0 false)) = 3 ∧
    ((((getCell (Life.init 3 3 (fun _ _ => false)).cells 0 0).getD
        (Cell.init 0 0 false)).neighbors.get Direction.E).isSome = true) ∧
    ((((getCell (Life.init 3 3 (fun _ _ => false)).cells 0 0).getD
        (Cell.init 0 0 false)).neighbors.get Direction.N).isSome = true) ∧
    ((((getCell (Life.init 3 3 (fun _ _ => false)).cells 0 0).getD
        (Cell.init 0 0 false)).neighbors.get Direction.NE).isSome = true) :=
  (C7_boundary_neighbor_counts 3 3 (fun _ _ => false) (by decide) (by decide) 0 0
    ((getCell (Life.init 3 3 (fun _ _ => false)).cells 0 0).getD (Cell.init 0 0 false))
    (by decide)).1 ⟨rfl, rfl⟩

/-- C8: for every cell of a constructed grid, count_live_neighbors() is at
most 8 and equals the number of assigned neighbor directions whose
referenced cell is currently alive (unassigned directions contribute 0);
moreover every assigned reference of a constructed grid resolves to a cell
of the grid. -/
theorem C8_count_live_neighbors (width height : Int) (rnd : Nat → Nat → Bool)
    (x y : Nat) (c : Cell)
    (hc : getCell (Life.init width height rnd).cells x y = some c) :
    count_live_neighbors (Life.init width height rnd).cells c ≤ 8 ∧
    count_live_neighbors (Life.init width height rnd).cells c
      = dirList.countP
          (fun d => liveB (Life.init width height rnd).cells (c.neighbors.get d)) ∧
    ∀ (d : Direction) (q : Nat × Nat), c.neighbors.get d = some q →
      (getCell (Life.init width height rnd).cells q.1 q.2).isSome = true := by
  refine ⟨count_live_le_eight _ _, count_live_eq_countP _ _, ?_⟩
  intro d q hq
  rw [getCell_init] at hc
  by_cases hb : x < width.toNat ∧ y < height.toNat
  · rw [if_pos hb] at hc
    have hcc := Option.some_inj.mp hc
    subst hcc
    have hq2 : neighborEntry width.toNat height.toNat x y d = some q := by
      rw [← initNeighbors_get]
      exact hq
    unfold neighborEntry at hq2
    by_cases hin : inBoundsCand width.toNat height.toNat x y d
    · rw [if_pos hin] at hq2
      have hqc := (Option.some_inj.mp hq2).symm
      have hq1 : q.1 = ((x : Int) + (directions d).1).toNat := by
        rw [hqc]; rfl
      have hq2b : q.2 = ((y : Int) + (directions d).2).toNat := by
        rw [hqc]; rfl
      unfold inBoundsCand at hin
      rw [getCell_isSome_iff (shaped_init width height rnd)]
      omega
    · rw [if_neg hin] at hq2
      exact absurd hq2 (by simp)
  · rw [if_neg hb] at hc
    exact absurd hc (by simp)

theorem C8_witness :
    count_live_neighbors (Life.init 2 2 (fun _ _ => true)).cells
        ((getCell (Life.init 2 2 (fun _ _ => true)).cells 0 0).getD
          (Cell.init 0 0 false)) ≤ 8 ∧
    count_live_neighbors (Life.init 2 2 (fun _ _ => true)).cells
        ((getCell (Life.init 2 2 (fun _ _ => true)).cells 0 0).getD
          (Cell.init 0 0 false))
      = dirList.countP
          (fun d => liveB (Life.init 2 2 (fun _ _ => true)).cells
            (((getCell (Life.init 2 2 (fun _ _ => true)).cells 0 0).getD
              (Cell.init 0 0 false)).neighbors.get d)) ∧
    ∀ (d : Direction) (q : Nat × Nat),
      ((getCell (Life.init 2 2 (fun _ _ => true)).cells 0 0).getD
          (Cell.init 0 0 false)).neighbors.get d = some q →
      (getCell (Life.init 2 2 (fun _ _ => true)).cells q.1 q.2).isSome = true :=
  C8_count_live_neighbors 2 2 (fun _ _ => true) 0 0
    ((getCell (Life.init 2 2 (fun _ _ => true)).cells 0 0).getD (Cell.init 0 0 false))
    (by decide)

end GameOfLife

